import Mathlib

/-!
A shallow embedding of the ChatWars log bot (`bot.py`): the message
classifier (`forwarded`), the route aggregation (`store_route` /
`alliance`), the time-of-day table (`game_time`), the quest parser
(`quest`), and the button-press flavor merge (`button`).

Raw chat text is modelled as `List Char`.  Python regular-expression
searches are translated into explicit character-list scanners that follow
the regex semantics of `re.search` / `re.finditer` (leftmost match, greedy
quantifiers; `.` never matches a newline).  The Python class `\w` also matches
non-ASCII word characters; the model restricts it to ASCII alphanumerics
plus underscore, which covers every capture the claims exercise.

Timestamps: `bot.py` stores `str(message.forward_date)` and compares
those strings with `<` and `max`.  `str` of a `datetime` has a fixed-width
layout, so the lexicographic string order agrees with chronological order;
the model uses `Nat`, which carries the same linear-order structure.

Python `dict`s become insertion-ordered association lists, `set`s become
`Finset`, and `collections.Counter` becomes `Multiset Char`
(`Counter.update` on a string inserts each of its characters).
-/

namespace CWBot

/-- Raw message text, as a list of characters. -/
abbrev Text := List Char

/-- A forward timestamp (see the module comment on the string/Nat order). -/
abbrev Time := Nat

/-- Substring test, Python `pat in text`. -/
def containsSub (pat : Text) : Text → Bool
  | [] => pat.isEmpty
  | c :: rest => pat.isPrefixOf (c :: rest) || containsSub pat rest

/-- The pathfinder bonus-energy phrase (bot.py lines 161 and 247). -/
def pathfinderLit : Text :=
  "Being a naturally born pathfinder, you found a secret passage and saved some energy +1🔋".toList

/-- The quest loot marker (bot.py lines 160 and 250). -/
def receivedLit : Text := "You received:".toList

/-- The route trigger phrase tested by `forwarded` (line 158); the leading
`То` is Cyrillic, exactly as in the source. -/
def routeTriggerLit : Text :=
  "То remember the route you associated it with simple combination:".toList

/-- The same phrase as it appears in the `alliance` pattern (line 204),
followed by a space and the code group. -/
def routeTriggerSpacedLit : Text :=
  "То remember the route you associated it with simple combination: ".toList

/-- Leading literal of the `alliance` route pattern (line 204). -/
def foundHiddenLit : Text := "You found hidden ".toList

/-- The optional `occupied` group of the route pattern, a fixed literal
(including its newline). -/
def occupiedLit : Text := "You noticed that objective is captured by alliance.\n".toList

/-- Leading literal of the optional `defended` group of the route pattern. -/
def defendedPreLit : Text := "You noticed a ".toList

/-- Trailing literal of the optional `defended` group. -/
def defendedSufLit : Text := " of defender near it.".toList

/-- Leading literal of the loot pattern in `quest` (line 252). -/
def earnedLit : Text := "Earned: ".toList

/-- The character class `[(🐺🐉🌑🦌🥔🦅🦈)]` of the guild regex (line 153);
the parentheses are literal members of the class. -/
def castleChars : List Char := ['(', '🐺', '🐉', '🌑', '🦌', '🥔', '🦅', '🦈', ')']

/-- Word-character class `\w` of the Python patterns, restricted to ASCII
(module comment). -/
def isWordChar (c : Char) : Bool := c.isAlphanum || c = '_'

/-- The class `[A-Z\d]` of the guild-tag group. -/
def isTagChar (c : Char) : Bool := ('A' ≤ c && c ≤ 'Z') || c.isDigit

/-- Capture groups of the guild regex
`(?P<castle>[(🐺🐉🌑🦌🥔🦅🦈)])\[(?P<guild>[A-Z\d]{2,3})\](?P<name>\w+)`. -/
structure Guild where
  castle : Char
  guild : Text
  name : Text
deriving DecidableEq

/-- Greedy counted repetition `[A-Z\d]{2,3}\]`: it tries three tag
characters first and falls back to two; the closing bracket cannot be a tag
character, so the two parses are mutually exclusive. -/
def tryTag (t : Text) : Option (Text × Text) :=
  match t with
  | a :: b :: rest =>
    if isTagChar a && isTagChar b then
      match rest with
      | c :: rest2 =>
        if isTagChar c then
          match rest2 with
          | ']' :: rest3 => some ([a, b, c], rest3)
          | _ => none
        else if c = ']' then some ([a, b], rest2)
        else none
      | [] => none
    else none
  | _ => none

/-- Attempt the guild pattern anchored at the head of `t`. -/
def matchGuildAt (t : Text) : Option Guild :=
  match t with
  | c :: '[' :: rest =>
    if castleChars.contains c then
      match tryTag rest with
      | some (tag, rest2) =>
        let nm := rest2.takeWhile isWordChar
        if nm.isEmpty then none else some ⟨c, tag, nm⟩
      | none => none
    else none
  | _ => none

/-- Search of the guild pattern, `re.search` semantics: the leftmost match
wins (line 153). -/
def identityMatch : Text → Option Guild
  | [] => none
  | c :: rest =>
    match matchGuildAt (c :: rest) with
    | some g => some g
    | none => identityMatch rest

/-- User string built on line 155: castle symbol, bracketed guild tag,
name. -/
def formatUser (g : Guild) : Text := g.castle :: '[' :: (g.guild ++ ']' :: g.name)

/-- Capture groups of the `alliance` route pattern (line 204).  The
`occupied` and `defended` groups hold the matched substring when present
(`None` in Python, `none` here, when the optional group did not
participate). -/
structure RouteGroups where
  name : Text
  occupied : Option Text
  defended : Option Text
  code : Text
deriving DecidableEq

/-- The optional group `(You noticed a .+ of defender near it\.\n)?`:
`.` cannot match a newline, so the group matches exactly one full line of
the stated shape (with a nonempty middle) plus its newline. -/
def tryDefended (t : Text) : Option (Text × Text) :=
  let line := t.takeWhile (fun c => c ≠ '\n')
  if defendedPreLit.isPrefixOf line
      && defendedSufLit.isSuffixOf line
      && defendedPreLit.length + defendedSufLit.length < line.length then
    match t.drop line.length with
    | '\n' :: rest => some (line ++ ['\n'], rest)
    | _ => none
  else none

/-- Attempt the full route pattern anchored at the head of `t`.  Greedy
`\w+` and `.+` are maximal runs; since a space respectively a newline must
follow and neither is a word character respectively matched by `.`, regex
backtracking can never produce a different outcome, so the scan is
deterministic. -/
def matchRouteAt (t : Text) : Option RouteGroups :=
  if foundHiddenLit.isPrefixOf t then
    let r1 := t.drop foundHiddenLit.length
    let w := r1.takeWhile isWordChar
    if w.isEmpty then none else
    match r1.drop w.length with
    | ' ' :: r2 =>
      let nm := r2.takeWhile (fun c => c ≠ '\n')
      if nm.isEmpty then none else
      (match r2.drop nm.length with
       | '\n' :: r3 =>
         let occStep : Option Text × Text :=
           if occupiedLit.isPrefixOf r3 then (some occupiedLit, r3.drop occupiedLit.length)
           else (none, r3)
         let defStep : Option Text × Text :=
           match tryDefended occStep.2 with
           | some (grp, rest) => (some grp, rest)
           | none => (none, occStep.2)
         if routeTriggerSpacedLit.isPrefixOf defStep.2 then
           let code := (defStep.2.drop routeTriggerSpacedLit.length).takeWhile isWordChar
           if code.isEmpty then none
           else some ⟨nm, occStep.1, defStep.1, code⟩
         else none
       | _ => none)
    | _ => none
  else none

/-- Function `alliance(text)`: `re.search` of the route pattern
(lines 203–206).  A failed search makes `.groupdict()` raise in Python;
that is `none` here. -/
def alliance : Text → Option RouteGroups
  | [] => none
  | c :: rest =>
    match matchRouteAt (c :: rest) with
    | some g => some g
    | none => alliance rest

/-- The fixed 24-entry hour table of `game_time` (lines 194–199). -/
def game_time_lookup : List String :=
  ["morning", "day", "day", "evening", "evening", "night", "night",
   "morning", "morning", "day", "day", "evening", "evening", "night", "night",
   "morning", "morning", "day", "day", "evening", "evening", "night", "night",
   "morning"]

/-- Lookup `game_time(datetime)` = `game_time_lookup[datetime.hour]`
(line 200); `datetime.hour` is always in `0..23`, modelled by `Fin 24`. -/
def game_time (hour : Fin 24) : String :=
  game_time_lookup.get ⟨hour.val, by exact hour.isLt⟩

/-- Replacement loop of Python `text.replace` (empty replacement) for a
nonempty `pat`: delete every
(leftmost, non-overlapping) occurrence.  Each step consumes at least one
character (the deletion branch fires only for a nonempty `pat`), so
`fuel = text.length` (see `replaceAll`) never runs out before the text
does. -/
def replaceLoop (pat : Text) : Nat → Text → Text
  | 0, t => t
  | _, [] => []
  | fuel + 1, c :: rest =>
    if !pat.isEmpty && pat.isPrefixOf (c :: rest) then
      replaceLoop pat fuel ((c :: rest).drop pat.length)
    else c :: replaceLoop pat fuel rest

/-- Deletion of every occurrence of `pat`, Python `text.replace` with the
empty replacement. -/
def replaceAll (pat : Text) (t : Text) : Text := replaceLoop pat t.length t

/-- Truncation `text.partition(pat)[0]`: everything before the first
occurrence of `pat` (the whole text when `pat` does not occur). -/
def takeUntil (pat : Text) : Text → Text
  | [] => []
  | c :: rest => if pat.isPrefixOf (c :: rest) then [] else c :: takeUntil pat rest

/-- Trimming, Python `str.strip()` (the model uses the Lean whitespace
class, which
covers the characters the bot texts contain). -/
def stripText (t : Text) : Text :=
  ((t.dropWhile Char.isWhitespace).reverse.dropWhile Char.isWhitespace).reverse

/-- One captured loot line: groups of `Earned: (?P<item>.+)\((?P<count>\d+)\)`. -/
structure LootItem where
  item : Text
  count : Text
deriving DecidableEq

/-- Greedy `.+\((\d+)\)` within `line`: try the longest item first
(item length `n + 1`, then a literal `(`, then a maximal nonempty digit
run, then `)`); on failure shorten the item, exactly as regex backtracking
does. -/
def grabAt (line : Text) : Nat → Option (Text × Text)
  | 0 => none
  | n + 1 =>
    match line.drop (n + 1) with
    | '(' :: after =>
      if !(after.takeWhile Char.isDigit).isEmpty
          && (after.dropWhile Char.isDigit).head? = some ')' then
        some (line.take (n + 1), after.takeWhile Char.isDigit)
      else grabAt line n
    | _ => grabAt line n

/-- Attempt `(?P<item>.+)\((?P<count>\d+)\)` at the head of `rem`
(everything after the `Earned: ` literal); `.` and `\d` cannot match a
newline, so the match is confined to the current line. -/
def tryEarnedAt (rem : Text) : Option (Text × Text) :=
  let line := rem.takeWhile (fun c => c ≠ '\n')
  grabAt line line.length

/-- Scan of the loot pattern with `re.finditer` semantics: leftmost
matches, resuming
after each match end, in order, without deduplication (line 253).  Each
step consumes at least one character, so `fuel = text.length` (see
`earnedMatches`) never runs out before the text does. -/
def earnedLoop : Nat → Text → List LootItem
  | 0, _ => []
  | _, [] => []
  | fuel + 1, c :: rest =>
    if earnedLit.isPrefixOf (c :: rest) then
      match tryEarnedAt ((c :: rest).drop earnedLit.length) with
      | some (it, ds) =>
        ⟨it, ds⟩ :: earnedLoop fuel ((c :: rest).drop (earnedLit.length + it.length + ds.length + 2))
      | none => earnedLoop fuel rest
    else earnedLoop fuel rest

/-- All loot matches of a text, in order. -/
def earnedMatches (t : Text) : List LootItem := earnedLoop t.length t

/-- The result dictionary of `quest(text)` (lines 246–255). -/
structure QuestData where
  pathfinder : Bool
  flavor_text : Text
  loot : List LootItem
deriving DecidableEq

/-- Parser `quest(text)`: pathfinder flag, flavor text and loot list
(lines 246–255). -/
def quest (text : Text) : QuestData :=
  { pathfinder := containsSub pathfinderLit text
  , flavor_text := stripText (takeUntil receivedLit (replaceAll pathfinderLit text))
  , loot := earnedMatches text }

/-- Insertion-ordered association list standing for a Python `dict`. -/
abbrev KeyMap (β : Type) := List (Text × β)

/-- Lookup `dict.get(key)`, also the membership test `key in dict`. -/
def lookupKey {β : Type} : KeyMap β → Text → Option β
  | [], _ => none
  | (k, v) :: rest, key => if k = key then some v else lookupKey rest key

/-- Assignment `dict[key] = value`: overwrite in place, or append a new
entry. -/
def updKey {β : Type} : KeyMap β → Text → β → KeyMap β
  | [], key, v => [(key, v)]
  | (k, v') :: rest, key, v =>
    if k = key then (key, v) :: rest else (k, v') :: updKey rest key v

/-- One entry of the routes table in `bot_data`: the `alliance` capture
groups plus
the `times_seen` set and the recomputed `count` (lines 177–190). -/
structure Route where
  name : Text
  occupied : Option Text
  defended : Option Text
  code : Text
  times_seen : Finset Time
  count : Nat
deriving DecidableEq

abbrev RouteMap := KeyMap Route

/-- Merge `store_route` (lines 177–190), as a function of the routes
table, the
message text and its forward timestamp.  It returns `none` when `alliance`
raises (failed search), which happens before any write; otherwise the
updated table and the stored entry.  The `getD fresh` default in the
retain branch is never used: the branch condition forces a nonempty
pre-existing `times_seen`, hence a present entry (Python reads `{}` there
and would crash on the later code-key access, equally unreachable). -/
def store_route (routes : RouteMap) (text : Text) (t : Time) :
    Option (RouteMap × Route) :=
  match alliance text with
  | none => none
  | some g =>
    let times0 : Finset Time := ((lookupKey routes g.code).map Route.times_seen).getD ∅
    let times : Finset Time := insert t times0
    let fresh : Route := ⟨g.name, g.occupied, g.defended, g.code, ∅, 0⟩
    let base : Route :=
      if t < times.max' (Finset.insert_nonempty t times0) then
        (lookupKey routes g.code).getD fresh
      else fresh
    let final : Route := { base with times_seen := times, count := times.card }
    some (updKey routes final.code final, final)

/-- Tag counter, `collections.Counter`, over location-tag characters;
`Counter.update` on a string inserts each of its characters. -/
abbrev Counter := Multiset Char

/-- Per-user flavors map held in `user_data`: flavor text ↦
`(Counter, times set)` (line 235). -/
abbrev FlavorMap := KeyMap (Counter × Finset Time)

/-- The merge performed by `button` (lines 227–243): look up the record for
the re-derived flavor text of the original message; if the forward
timestamp of the source event is already recorded, change nothing;
otherwise record it and add every character of the callback data of the
button to the counter.
Returns the updated map and the counter the handler renders. -/
def buttonMerge (flavors : FlavorMap) (srcText : Text) (t : Time) (btn : Text) :
    FlavorMap × Counter :=
  let key := (quest srcText).flavor_text
  let cur := (lookupKey flavors key).getD (0, ∅)
  if t ∈ cur.2 then (flavors, cur.1)
  else
    let count' : Counter := cur.1 + (btn : Multiset Char)
    (updKey flavors key (count', insert t cur.2), count')

/-- The mutable state the handlers touch: process-wide `bot_data` (routes
and the never-written `flavors` key) and the `user_data` of the sending
user.  Handlers only ever access the data of the sending user, so the
records of other users are untouched by construction. -/
structure Sys where
  routes : RouteMap
  botFlavors : FlavorMap
  userFlavors : FlavorMap
  userName : Option Text
  textInfo : Option String
deriving DecidableEq

/-- The empty persisted state of a fresh process. -/
def sys0 : Sys := ⟨[], [], [], none, none⟩

/-- The outward action a handler takes on one forwarded message. -/
inductive Action where
  | replyIdentity (user : Text)
  | replyRoute (name : Text) (count : Nat)
  | promptLocation (flavorKey : Text)
  | replyUnknown
  | errorNotice
  | dropped
deriving DecidableEq

/-- The quest-indicative test of lines 160–162: a `You received:` marker,
or the pathfinder phrase, or membership of the raw text among the keys of
the flavors entry of `bot_data` (the source reads `bot_data` here, not
`user_data`). -/
def questIndicated (s : Sys) (text : Text) : Bool :=
  containsSub receivedLit text || containsSub pathfinderLit text
    || (lookupKey s.botFlavors text).isSome

/-- Branches 2–5 of `forwarded` (lines 158–170), reached when the guild
branch did not fire. -/
def forwardedRest (s : Sys) (text : Text) (t : Time) (priv : Bool) : Sys × Action :=
  if containsSub routeTriggerLit text then
    match store_route s.routes text t with
    | some (m, r) => ({ s with routes := m }, .replyRoute r.name r.count)
    | none => (s, .errorNotice)
  else if questIndicated s text && priv then
    (s, .promptLocation (quest text).flavor_text)
  else if priv then
    ({ s with textInfo := some "unknown" }, .replyUnknown)
  else (s, .dropped)

/-- The `forwarded` handler (lines 144–170): guild match first (private
chats only), then the route trigger, then the quest indicators (private
chats only), then the private-chat unknown acknowledgement, else a silent
drop.  `ask_location` only renders a prompt and mutates nothing. -/
def forwarded (s : Sys) (text : Text) (t : Time) (priv : Bool) : Sys × Action :=
  match identityMatch text with
  | some g =>
    if priv then ({ s with userName := some (formatUser g) }, .replyIdentity (formatUser g))
    else forwardedRest s text t priv
  | none => forwardedRest s text t priv

/-- The `button` handler (lines 227–243) at the state level: it merges
into the flavors map of the sending user and returns the counter it
renders.  `srcText` and `t` are the text and forward timestamp of the
original message the prompt replied to. -/
def buttonPress (s : Sys) (srcText : Text) (t : Time) (btn : Text) : Sys × Counter :=
  let r := buttonMerge s.userFlavors srcText t btn
  ({ s with userFlavors := r.1 }, r.2)

/-! ## Supporting lemmas -/

/-- Decidability transfer: `List.isPrefixOf` decides the prefix relation. -/
theorem prefixOf_iff (l₁ l₂ : Text) : l₁.isPrefixOf l₂ = true ↔ l₁ <+: l₂ := by
  induction l₁ generalizing l₂ with
  | nil => simp [ List.isPrefixOf]
  | cons a t ih =>
    cases l₂ with
    | nil => simp [ List.isPrefixOf]
    | cons b t₂ => simp [ List.isPrefixOf, List.cons_prefix_cons, ih]

/-- Decidability transfer: `containsSub` decides the infix relation
(Python `in`). -/
theorem containsSub_iff (pat t : Text) : containsSub pat t = true ↔ pat <:+: t := by
  induction t with
  | nil => simp [containsSub, List.isEmpty_iff, List.infix_nil]
  | cons c rest ih =>
    simp [containsSub, prefixOf_iff, ih, List.infix_cons_iff]

/-- Looking a key up after a `dict` write. -/
theorem lookupKey_updKey {β : Type} (m : KeyMap β) (k k' : Text) (v : β) :
    lookupKey (updKey m k v) k' = if k = k' then some v else lookupKey m k' := by
  induction m with
  | nil => simp [updKey, lookupKey]
  | cons e rest ih =>
    obtain ⟨ek, ev⟩ := e
    by_cases h : ek = k
    · subst h
      by_cases h2 : ek = k' <;> simp [updKey, lookupKey, h2]
    · by_cases h2 : ek = k'
      · subst h2
        simp [updKey, lookupKey, h, Ne.symm h]
      · simp [updKey, lookupKey, h, h2, ih]

/-- Rewriting a key with the value it already holds is a no-op. -/
theorem updKey_self {β : Type} (m : KeyMap β) (k : Text) (v : β)
    (h : lookupKey m k = some v) : updKey m k v = m := by
  induction m with
  | nil => simp [lookupKey] at h
  | cons e rest ih =>
    obtain ⟨ek, ev⟩ := e
    by_cases h2 : ek = k
    · subst h2
      simp [lookupKey] at h
      simp [updKey, h]
    · simp [lookupKey, h2] at h
      simp [updKey, h2, ih h]

/-- Neither message handling nor a button press ever writes
the flavors entry of `bot_data`: the membership test of line 162 only ever sees the
initial (empty) collection. -/
theorem botFlavors_constant (s : Sys) (text : Text) (t : Time) (priv : Bool)
    (src btn : Text) :
    (forwarded s text t priv).1.botFlavors = s.botFlavors ∧
    (buttonPress s src t btn).1.botFlavors = s.botFlavors := by
  refine ⟨?_, rfl⟩
  unfold forwarded forwardedRest
  split <;> split <;> try rfl
  all_goals split <;> try rfl
  all_goals first
    | rfl
    | (split <;> try rfl)

/-- Characters kept by `takeWhile` all satisfy the predicate. -/
theorem all_takeWhile (p : Char → Bool) (l : Text) : (l.takeWhile p).all p = true := by
  induction l with
  | nil => rfl
  | cons c t ih =>
    by_cases h : p c
    · simp [ List.takeWhile, h, ih]
    · simp [ List.takeWhile, h]

/-- Soundness of the greedy loot-group scan: a successful `grabAt` yields a
nonempty item, a nonempty all-digit count, and the matched shape is a
prefix of the line. -/
theorem grabAt_sound (line : Text) : ∀ (n : Nat) (it ds : Text),
    grabAt line n = some (it, ds) →
    it ≠ [] ∧ ds ≠ [] ∧ ds.all Char.isDigit = true ∧
    (it ++ '(' :: (ds ++ [')'])) <+: line := by
  intro n
  induction n with
  | zero =>
    intro it ds h
    simp [grabAt] at h
  | succ n ih =>
    intro it ds h
    rw [grabAt] at h
    split at h
    · rename_i after heq
      split at h
      · rename_i hcond
        simp only [Bool.and_eq_true, Bool.not_eq_true', decide_eq_true_eq] at hcond
        obtain ⟨hemp, hpar⟩ := hcond
        simp only [Option.some.injEq, Prod.mk.injEq] at h
        obtain ⟨hit, hds⟩ := h
        subst hit
        subst hds
        have hlen := congrArg List.length heq
        simp only [List.length_drop, List.length_cons] at hlen
        obtain ⟨tl, htl⟩ : ∃ tl, after.dropWhile Char.isDigit = ')' :: tl := by
          cases hdw : after.dropWhile Char.isDigit with
          | nil => rw [hdw] at hpar; simp at hpar
          | cons x xs =>
            rw [hdw] at hpar
            simp only [List.head?_cons, Option.some.injEq] at hpar
            exact ⟨xs, by rw [hpar]⟩
        refine ⟨?_, ?_, all_takeWhile _ _, ?_⟩
        · intro hnil
          rcases List.take_eq_nil_iff.mp hnil with h0 | h0
          · omega
          · subst h0
            simp at hlen
        · intro hnil
          rw [hnil] at hemp
          simp at hemp
        · refine ⟨tl, ?_⟩
          have hline : line = line.take (n + 1) ++ '(' :: after := by
            conv_lhs => rw [← List.take_append_drop (n + 1) line]
            rw [heq]
          have hafter : after.takeWhile Char.isDigit ++ ')' :: tl = after := by
            rw [← htl]
            exact List.takeWhile_append_dropWhile Char.isDigit after
          conv_rhs => rw [hline, ← hafter]
          simp
      · exact ih _ _ h
    · exact ih _ _ h

/-- Transfer of `grabAt` soundness to the line-confined match attempt. -/
theorem tryEarnedAt_sound (rem it ds : Text)
    (h : tryEarnedAt rem = some (it, ds)) :
    it ≠ [] ∧ ds ≠ [] ∧ ds.all Char.isDigit = true ∧
    (it ++ '(' :: (ds ++ [')'])) <+: rem := by
  simp only [tryEarnedAt] at h
  obtain ⟨h1, h2, h3, h4⟩ := grabAt_sound _ _ _ _ h
  exact ⟨h1, h2, h3, h4.trans (List.takeWhile_prefix _)⟩

/-- Every loot item the finditer scan emits is a genuine occurrence of the
`Earned: <item>(<count>)` shape inside the scanned text. -/
theorem earnedLoop_sound : ∀ (fuel : Nat) (t : Text) (li : LootItem),
    li ∈ earnedLoop fuel t →
    li.item ≠ [] ∧ li.count ≠ [] ∧ li.count.all Char.isDigit = true ∧
    (earnedLit ++ li.item ++ '(' :: (li.count ++ [')'])) <:+: t := by
  intro fuel
  induction fuel with
  | zero =>
    intro t li h
    simp [earnedLoop] at h
  | succ fuel ih =>
    intro t li h
    cases t with
    | nil => simp [earnedLoop] at h
    | cons c rest =>
      rw [earnedLoop] at h
      split at h
      · rename_i hpre
        split at h
        · rename_i it ds heq
          rcases List.mem_cons.mp h with hli | hmem
          · subst hli
            obtain ⟨h1, h2, h3, h4⟩ := tryEarnedAt_sound _ _ _ heq
            obtain ⟨tail, htail⟩ := (prefixOf_iff _ _).mp hpre
            have hdrop : (c :: rest).drop earnedLit.length = tail := by
              rw [← htail, List.drop_left]
            rw [hdrop] at h4
            obtain ⟨u, hu⟩ := h4
            refine ⟨h1, h2, h3, List.IsPrefix.isInfix ⟨u, ?_⟩⟩
            rw [← htail, ← hu]
            simp
          · obtain ⟨h1, h2, h3, h4⟩ := ih _ _ hmem
            exact ⟨h1, h2, h3, h4.trans (List.drop_suffix _ _).isInfix⟩
        · obtain ⟨h1, h2, h3, h4⟩ := ih _ _ h
          exact ⟨h1, h2, h3, h4.trans (List.suffix_cons c rest).isInfix⟩
      · obtain ⟨h1, h2, h3, h4⟩ := ih _ _ h
        exact ⟨h1, h2, h3, h4.trans (List.suffix_cons c rest).isInfix⟩

/-! ## Claim theorems -/

/-- C9: `game_time` is a pure total function on hours 0–23 reproducing the
fixed 24-entry table: hour 0 ↦ morning, hour 9 ↦ day, hour 23 ↦ morning,
and every hour maps to one of the four labels; the table is exactly the
sequence the specification lists. -/
theorem C9_game_time_table :
    game_time 0 = "morning" ∧ game_time 9 = "day" ∧ game_time 23 = "morning" ∧
    (∀ h : Fin 24, game_time h = "morning" ∨ game_time h = "day" ∨
      game_time h = "evening" ∨ game_time h = "night") ∧
    game_time_lookup =
      ["morning", "day", "day", "evening", "evening", "night", "night",
       "morning", "morning", "day", "day", "evening", "evening", "night", "night",
       "morning", "morning", "day", "day", "evening", "evening", "night", "night",
       "morning"] := by decide

/-- C5: classification priority — a private-chat text that matches the
identity pattern is handled by the identity branch even when it also
contains the route trigger or a quest indicator; the route/quest branches
are never reached. -/
theorem C5_identity_priority (s : Sys) (text : Text) (t : Time) (g : Guild)
    (hid : identityMatch text = some g)
    (hboth : containsSub routeTriggerLit text = true ∨ questIndicated s text = true) :
    forwarded s text t true =
      ({ s with userName := some (formatUser g) }, .replyIdentity (formatUser g)) := by
  simp [forwarded, hid]

/-- Witness for C5 on a concrete text carrying both an identity match and
the route trigger phrase. -/
theorem C5_identity_priority_witness :
    identityMatch "🐺[ABC]Wolf То remember the route you associated it with simple combination: XY1".toList
      = some ⟨'🐺', "ABC".toList, "Wolf".toList⟩ ∧
    containsSub routeTriggerLit "🐺[ABC]Wolf То remember the route you associated it with simple combination: XY1".toList = true ∧
    forwarded sys0 "🐺[ABC]Wolf То remember the route you associated it with simple combination: XY1".toList 7 true =
      ({ sys0 with userName := some (formatUser ⟨'🐺', "ABC".toList, "Wolf".toList⟩) },
        .replyIdentity (formatUser ⟨'🐺', "ABC".toList, "Wolf".toList⟩)) :=
  ⟨by decide, by decide,
    C5_identity_priority sys0 _ 7 _ (by decide) (Or.inl (by decide))⟩

/-- C6: a text matching no template is acknowledged with the explicit
unknown reply in a private chat (only the per-user `text_info` note changes),
and in a non-private chat it is dropped with no reply and no state change
at all. -/
theorem C6_unknown_fallback (s : Sys) (text : Text) (t : Time)
    (hid : identityMatch text = none)
    (hroute : containsSub routeTriggerLit text = false)
    (hq : questIndicated s text = false) :
    forwarded s text t true = ({ s with textInfo := some "unknown" }, .replyUnknown) ∧
    forwarded s text t false = (s, .dropped) := by
  constructor <;> simp [forwarded, forwardedRest, hid, hroute, hq]

/-- Witness for C6 on a concrete unclassifiable text. -/
theorem C6_unknown_fallback_witness :
    identityMatch "hello there".toList = none ∧
    containsSub routeTriggerLit "hello there".toList = false ∧
    questIndicated sys0 "hello there".toList = false ∧
    (forwarded sys0 "hello there".toList 7 true
        = ({ sys0 with textInfo := some "unknown" }, .replyUnknown) ∧
      forwarded sys0 "hello there".toList 7 false = (sys0, .dropped)) :=
  ⟨by decide, by decide, by decide,
    C6_unknown_fallback sys0 _ 7 (by decide) (by decide) (by decide)⟩

/-- C7: a message containing the route trigger phrase on which the full
route pattern nevertheless fails makes the handling of that single message
fail (`alliance(...).groupdict()` raises before any write): the state —
in particular the routes table — is exactly as before, and the user gets
the generic failure notice. -/
theorem C7_malformed_route_aborts (s : Sys) (text : Text) (t : Time) (priv : Bool)
    (htrig : containsSub routeTriggerLit text = true)
    (hfail : alliance text = none)
    (hreach : ¬((identityMatch text).isSome = true ∧ priv = true)) :
    forwarded s text t priv = (s, .errorNotice) := by
  unfold forwarded
  cases hidm : identityMatch text with
  | some g =>
    have hp : priv = false := by
      cases priv
      · rfl
      · exact absurd ⟨by simp [hidm], rfl⟩ hreach
    subst hp
    simp [forwardedRest, htrig, store_route, hfail]
  | none => simp [forwardedRest, htrig, store_route, hfail]

/-- Witness for C7: the bare trigger line with a code but without the
`You found hidden` prefix. -/
theorem C7_malformed_route_aborts_witness :
    containsSub routeTriggerLit "То remember the route you associated it with simple combination: AB12".toList = true ∧
    alliance "То remember the route you associated it with simple combination: AB12".toList = none ∧
    ¬((identityMatch "То remember the route you associated it with simple combination: AB12".toList).isSome = true ∧ true = true) ∧
    forwarded sys0 "То remember the route you associated it with simple combination: AB12".toList 7 true = (sys0, .errorNotice) :=
  ⟨by decide, by decide, by decide,
    C7_malformed_route_aborts sys0 _ 7 true (by decide) (by decide) (by decide)⟩

/-- C1 as stated is false on the code: when the forward timestamp of the
new observation *equals* the maximum already in `times_seen`, the retain
test `str(exact_time) < max(times_seen)` is false and the fields of the
new event are
adopted.  Concretely: a route stored with `occupied = none` at timestamp 5,
then observed again at timestamp 5 with the occupied line present, ends up
with `occupied = some …` although the claim demands it stay unchanged
(the timestamp set does not grow: it stays `{5}`). -/
theorem C1_counterexample :
    (store_route []
        "You found hidden passage Old Mill\nТо remember the route you associated it with simple combination: AB12".toList
        5).map (fun p => p.2.occupied) = some none ∧
    ((store_route []
        "You found hidden passage Old Mill\nТо remember the route you associated it with simple combination: AB12".toList
        5).bind fun p =>
      store_route p.1
        "You found hidden passage Old Mill\nYou noticed that objective is captured by alliance.\nТо remember the route you associated it with simple combination: AB12".toList
        5).map (fun p => (p.2.occupied, p.2.times_seen)) =
      some (some occupiedLit, {5}) := by decide

/-- C1 (amended): on a later observation of an already-stored secret code,
the merge grows the timestamp set by the new timestamp and recomputes the
count; it adopts the name/occupied/defended fields of the new event when the new
timestamp is greater than **or equal to** every timestamp already seen
(i.e. ≥ the running maximum), and leaves them unchanged only when the new
timestamp is strictly lower than that maximum. -/
theorem C1_route_flags_policy (routes : RouteMap) (text : Text) (t : Time)
    (g : RouteGroups) (r : Route)
    (hg : alliance text = some g)
    (hr : lookupKey routes g.code = some r) :
    ∃ m' r', store_route routes text t = some (m', r') ∧
      r'.times_seen = insert t r.times_seen ∧
      r'.count = (insert t r.times_seen).card ∧
      ((∀ u ∈ r.times_seen, u ≤ t) →
        r'.name = g.name ∧ r'.occupied = g.occupied ∧ r'.defended = g.defended) ∧
      ((∃ u ∈ r.times_seen, t < u) →
        r'.name = r.name ∧ r'.occupied = r.occupied ∧ r'.defended = r.defended) := by
  have hmax : ∀ hne : (insert t r.times_seen).Nonempty,
      t < (insert t r.times_seen).max' hne ↔ ∃ u ∈ r.times_seen, t < u := by
    intro hne
    constructor
    · intro hlt
      by_contra hno
      push_neg at hno
      have hle : (insert t r.times_seen).max' hne ≤ t := by
        apply Finset.max'_le
        intro y hy
        rcases Finset.mem_insert.mp hy with rfl | hy'
        · exact le_refl y
        · exact hno y hy'
      exact absurd hlt (not_lt.mpr hle)
    · rintro ⟨u, hu, htu⟩
      have hle : u ≤ (insert t r.times_seen).max' hne :=
        Finset.le_max' _ u (Finset.mem_insert_of_mem hu)
      exact lt_of_lt_of_le htu hle
  simp only [store_route, hg, hr, Option.map_some', Option.getD_some]
  by_cases hc : t < (insert t r.times_seen).max' (Finset.insert_nonempty t r.times_seen)
  · rw [if_pos hc]
    refine ⟨_, _, rfl, rfl, rfl, ?_, ?_⟩
    · intro hall
      exfalso
      rcases (hmax _).mp hc with ⟨u, hu, htu⟩
      exact absurd (hall u hu) (not_le.mpr htu)
    · intro _
      exact ⟨rfl, rfl, rfl⟩
  · rw [if_neg hc]
    refine ⟨_, _, rfl, rfl, rfl, ?_, ?_⟩
    · intro _
      exact ⟨rfl, rfl, rfl⟩
    · intro hex
      exact absurd ((hmax _).mpr hex) hc

/-- Witness for the amended C1: a stored route (seen at timestamp 3 with
different fields) merged with a fresh observation at timestamp 5. -/
theorem C1_route_flags_policy_witness :
    alliance "You found hidden passage Old Mill\nТо remember the route you associated it with simple combination: AB12".toList
      = some ⟨"Old Mill".toList, none, none, "AB12".toList⟩ ∧
    lookupKey [("AB12".toList,
        (⟨"Oldest Mill".toList, some occupiedLit, none, "AB12".toList, {3}, 1⟩ : Route))]
      "AB12".toList = some ⟨"Oldest Mill".toList, some occupiedLit, none, "AB12".toList, {3}, 1⟩ ∧
    (∃ m' r',
      store_route [("AB12".toList,
          (⟨"Oldest Mill".toList, some occupiedLit, none, "AB12".toList, {3}, 1⟩ : Route))]
        "You found hidden passage Old Mill\nТо remember the route you associated it with simple combination: AB12".toList
        5 = some (m', r') ∧
      r'.times_seen = insert 5 {3} ∧
      r'.count = (insert 5 ({3} : Finset Time)).card ∧
      ((∀ u ∈ ({3} : Finset Time), u ≤ 5) →
        r'.name = "Old Mill".toList ∧ r'.occupied = none ∧ r'.defended = none) ∧
      ((∃ u ∈ ({3} : Finset Time), 5 < u) →
        r'.name = "Oldest Mill".toList ∧ r'.occupied = some occupiedLit ∧ r'.defended = none)) :=
  ⟨by decide, by decide,
    C1_route_flags_policy
      [("AB12".toList,
        (⟨"Oldest Mill".toList, some occupiedLit, none, "AB12".toList, {3}, 1⟩ : Route))]
      "You found hidden passage Old Mill\nТо remember the route you associated it with simple combination: AB12".toList
      5 ⟨"Old Mill".toList, none, none, "AB12".toList⟩
      ⟨"Oldest Mill".toList, some occupiedLit, none, "AB12".toList, {3}, 1⟩
      (by decide) (by decide)⟩

/-- C3: merging the same route message (same secret code, same forward
timestamp) twice into a table that did not yet hold the code stores the
timestamp once — the second merge is a no-op on the table — and the count
is 1; in general the stored count always equals the size of the stored
timestamp set. -/
theorem C3_route_merge_idempotent (routes : RouteMap) (text : Text) (t : Time)
    (g : RouteGroups) (hg : alliance text = some g)
    (h0 : lookupKey routes g.code = none) :
    ∃ m₁ r₁, store_route routes text t = some (m₁, r₁) ∧
      store_route m₁ text t = some (m₁, r₁) ∧
      r₁.times_seen = {t} ∧ r₁.count = 1 ∧
      (∀ rs tx tt m rr, store_route rs tx tt = some (m, rr) →
        rr.count = rr.times_seen.card) := by
  have hgen : ∀ rs tx tt m rr, store_route rs tx tt = some (m, rr) →
      rr.count = rr.times_seen.card := by
    intro rs tx tt m rr h
    unfold store_route at h
    cases halt : alliance tx with
    | none => rw [halt] at h; cases h
    | some gg =>
      rw [halt] at h
      simp only [Option.some.injEq] at h
      obtain ⟨hm, hrr⟩ := Prod.mk.inj h
      subst hrr
      rfl
  have hfirst : store_route routes text t =
      some (updKey routes g.code ⟨g.name, g.occupied, g.defended, g.code, {t}, 1⟩,
            ⟨g.name, g.occupied, g.defended, g.code, {t}, 1⟩) := by
    simp only [store_route, hg, h0, Option.map_none', Option.getD_none,
      Finset.insert_empty]
    rw [if_neg (by simp [Finset.max'_singleton])]
    simp
  have hlook : lookupKey (updKey routes g.code
      ⟨g.name, g.occupied, g.defended, g.code, {t}, 1⟩) g.code =
      some ⟨g.name, g.occupied, g.defended, g.code, {t}, 1⟩ := by
    rw [lookupKey_updKey]
    simp
  have hins : insert t ({t} : Finset Time) = {t} :=
    Finset.insert_eq_self.mpr (Finset.mem_singleton_self t)
  have hsecond : store_route (updKey routes g.code
      ⟨g.name, g.occupied, g.defended, g.code, {t}, 1⟩) text t =
      some (updKey routes g.code ⟨g.name, g.occupied, g.defended, g.code, {t}, 1⟩,
            ⟨g.name, g.occupied, g.defended, g.code, {t}, 1⟩) := by
    simp only [store_route, hg, hlook, Option.map_some', Option.getD_some, hins]
    rw [if_neg (by simp [Finset.max'_singleton])]
    simp only [Finset.card_singleton]
    rw [updKey_self _ _ _ hlook]
  exact ⟨_, _, hfirst, hsecond, rfl, rfl, hgen⟩

/-- Witness for C3: the end-to-end route message merged twice into an empty
table at timestamp 5. -/
theorem C3_route_merge_idempotent_witness :
    alliance "You found hidden passage Old Mill\nТо remember the route you associated it with simple combination: AB12".toList
      = some ⟨"Old Mill".toList, none, none, "AB12".toList⟩ ∧
    lookupKey ([] : RouteMap) "AB12".toList = none ∧
    (∃ m₁ r₁,
      store_route []
        "You found hidden passage Old Mill\nТо remember the route you associated it with simple combination: AB12".toList
        5 = some (m₁, r₁) ∧
      store_route m₁
        "You found hidden passage Old Mill\nТо remember the route you associated it with simple combination: AB12".toList
        5 = some (m₁, r₁) ∧
      r₁.times_seen = {5} ∧ r₁.count = 1 ∧
      (∀ rs tx tt m rr, store_route rs tx tt = some (m, rr) →
        rr.count = rr.times_seen.card)) :=
  ⟨by decide, by decide,
    C3_route_merge_idempotent []
      "You found hidden passage Old Mill\nТо remember the route you associated it with simple combination: AB12".toList
      5 ⟨"Old Mill".toList, none, none, "AB12".toList⟩
      (by decide) (by decide)⟩

/-- C4: resolving a pending prompt twice with the same source-event
timestamp increments the counter of the pressed tag exactly once — the second
press changes neither the stored map nor the rendered counter — while a
further resolution with a distinct fresh timestamp increments it again. -/
theorem C4_flavor_merge_idempotent (flavors : FlavorMap) (src : Text) (t₁ t₂ : Time) (sym : Char)
    (h₁ : t₁ ∉ ((lookupKey flavors (quest src).flavor_text).getD (0, ∅)).2)
    (h₂ : t₂ ∉ ((lookupKey flavors (quest src).flavor_text).getD (0, ∅)).2)
    (hne : t₂ ≠ t₁) :
    (buttonMerge flavors src t₁ [sym]).2.count sym
      = ((lookupKey flavors (quest src).flavor_text).getD (0, ∅)).1.count sym + 1 ∧
    buttonMerge (buttonMerge flavors src t₁ [sym]).1 src t₁ [sym]
      = buttonMerge flavors src t₁ [sym] ∧
    (buttonMerge (buttonMerge flavors src t₁ [sym]).1 src t₂ [sym]).2.count sym
      = (buttonMerge flavors src t₁ [sym]).2.count sym + 1 := by
  have hfirst : buttonMerge flavors src t₁ [sym] =
      (updKey flavors (quest src).flavor_text
        (((lookupKey flavors (quest src).flavor_text).getD (0, ∅)).1 + ↑[sym],
         insert t₁ ((lookupKey flavors (quest src).flavor_text).getD (0, ∅)).2),
       ((lookupKey flavors (quest src).flavor_text).getD (0, ∅)).1 + ↑[sym]) := by
    simp only [buttonMerge]
    rw [if_neg h₁]
  refine ⟨?_, ?_, ?_⟩
  · rw [hfirst]
    simp
  · rw [hfirst]
    simp only [buttonMerge, lookupKey_updKey, if_pos rfl, if_true, eq_self_iff_true,
      Option.getD_some]
    rw [if_pos (Finset.mem_insert_self t₁ _)]
  · rw [hfirst]
    simp only [buttonMerge, lookupKey_updKey, if_pos rfl, if_true, eq_self_iff_true,
      Option.getD_some]
    rw [if_neg (by simp [Finset.mem_insert, hne, h₂])]
    simp

/-- Witness for C4 on an empty flavor map, the end-to-end quest message,
timestamps 3 and 4 and the 🌲 button. -/
theorem C4_flavor_merge_idempotent_witness :
    ((3 : Time) ∉ ((lookupKey ([] : FlavorMap)
        (quest "mystery meadow\nYou received:\nEarned: Wood(5)".toList).flavor_text).getD (0, ∅)).2 ∧
     (4 : Time) ∉ ((lookupKey ([] : FlavorMap)
        (quest "mystery meadow\nYou received:\nEarned: Wood(5)".toList).flavor_text).getD (0, ∅)).2 ∧
     (4 : Time) ≠ 3) ∧
    ((buttonMerge [] "mystery meadow\nYou received:\nEarned: Wood(5)".toList 3 ['🌲']).2.count '🌲'
      = ((lookupKey ([] : FlavorMap)
          (quest "mystery meadow\nYou received:\nEarned: Wood(5)".toList).flavor_text).getD (0, ∅)).1.count '🌲' + 1 ∧
     buttonMerge (buttonMerge [] "mystery meadow\nYou received:\nEarned: Wood(5)".toList 3 ['🌲']).1
        "mystery meadow\nYou received:\nEarned: Wood(5)".toList 3 ['🌲']
      = buttonMerge [] "mystery meadow\nYou received:\nEarned: Wood(5)".toList 3 ['🌲'] ∧
     (buttonMerge (buttonMerge [] "mystery meadow\nYou received:\nEarned: Wood(5)".toList 3 ['🌲']).1
        "mystery meadow\nYou received:\nEarned: Wood(5)".toList 4 ['🌲']).2.count '🌲'
      = (buttonMerge [] "mystery meadow\nYou received:\nEarned: Wood(5)".toList 3 ['🌲']).2.count '🌲' + 1) :=
  ⟨⟨by decide, by decide, by decide⟩,
    C4_flavor_merge_idempotent [] "mystery meadow\nYou received:\nEarned: Wood(5)".toList
      3 4 '🌲' (by decide) (by decide) (by decide)⟩

/-- C10: a button press carrying one of the three fixed single-symbol
values preserves the invariant that the sum of all counter values of the
touched flavor record equals the number of recorded timestamps, and leaves
every other flavor record untouched. -/
theorem C10_counter_card_invariant (flavors : FlavorMap) (src : Text) (t : Time) (btn : Text)
    (hbtn : btn = ['🌲'] ∨ btn = ['🍄'] ∨ btn = ['🏔'])
    (hinv : ((lookupKey flavors (quest src).flavor_text).getD (0, ∅)).1.card
          = ((lookupKey flavors (quest src).flavor_text).getD (0, ∅)).2.card) :
    (((lookupKey (buttonMerge flavors src t btn).1 (quest src).flavor_text).getD (0, ∅)).1.card
      = ((lookupKey (buttonMerge flavors src t btn).1 (quest src).flavor_text).getD (0, ∅)).2.card) ∧
    ∀ k, k ≠ (quest src).flavor_text →
      lookupKey (buttonMerge flavors src t btn).1 k = lookupKey flavors k := by
  have hlen : btn.length = 1 := by rcases hbtn with rfl | rfl | rfl <;> rfl
  by_cases hmem : t ∈ ((lookupKey flavors (quest src).flavor_text).getD (0, ∅)).2
  · have hid : (buttonMerge flavors src t btn).1 = flavors := by
      simp only [buttonMerge]
      rw [if_pos hmem]
    rw [hid]
    exact ⟨hinv, fun k _ => rfl⟩
  · have hupd : (buttonMerge flavors src t btn).1 = updKey flavors (quest src).flavor_text
        (((lookupKey flavors (quest src).flavor_text).getD (0, ∅)).1 + ↑btn,
         insert t ((lookupKey flavors (quest src).flavor_text).getD (0, ∅)).2) := by
      simp only [buttonMerge]
      rw [if_neg hmem]
    rw [hupd]
    constructor
    · rw [lookupKey_updKey]
      simp only [if_pos rfl, if_true, eq_self_iff_true, Option.getD_some]
      rw [Multiset.card_add, Finset.card_insert_of_not_mem hmem, Multiset.coe_card, hlen, hinv]
    · intro k hk
      rw [lookupKey_updKey]
      rw [if_neg (Ne.symm hk)]

/-- Witness for C10 on an empty flavor map and the 🍄 button. -/
theorem C10_counter_card_invariant_witness :
    (((['🍄'] : Text) = ['🌲'] ∨ (['🍄'] : Text) = ['🍄'] ∨ (['🍄'] : Text) = ['🏔']) ∧
     ((lookupKey ([] : FlavorMap)
        (quest "mystery meadow\nYou received:\nEarned: Wood(5)".toList).flavor_text).getD (0, ∅)).1.card
      = ((lookupKey ([] : FlavorMap)
        (quest "mystery meadow\nYou received:\nEarned: Wood(5)".toList).flavor_text).getD (0, ∅)).2.card) ∧
    ((((lookupKey (buttonMerge [] "mystery meadow\nYou received:\nEarned: Wood(5)".toList 3 ['🍄']).1
          (quest "mystery meadow\nYou received:\nEarned: Wood(5)".toList).flavor_text).getD (0, ∅)).1.card
       = ((lookupKey (buttonMerge [] "mystery meadow\nYou received:\nEarned: Wood(5)".toList 3 ['🍄']).1
          (quest "mystery meadow\nYou received:\nEarned: Wood(5)".toList).flavor_text).getD (0, ∅)).2.card) ∧
     ∀ k, k ≠ (quest "mystery meadow\nYou received:\nEarned: Wood(5)".toList).flavor_text →
       lookupKey (buttonMerge [] "mystery meadow\nYou received:\nEarned: Wood(5)".toList 3 ['🍄']).1 k
         = lookupKey ([] : FlavorMap) k) :=
  ⟨⟨Or.inr (Or.inl rfl), by decide⟩,
    C10_counter_card_invariant [] "mystery meadow\nYou received:\nEarned: Wood(5)".toList
      3 ['🍄'] (Or.inr (Or.inl rfl)) (by decide)⟩

/-- C8: the quest parser sets the pathfinder flag exactly when the
pathfinder phrase occurs in the text, computes the flavor text by removing
that phrase, truncating at `You received:` and trimming whitespace, and
collects the ordered, non-deduplicated list of all `Earned: <item>(<count>)`
matches of the text — each emitted item really occurs in the text in that
shape, with a nonempty item and a nonempty all-digit count. -/
theorem C8_quest_parse (text : Text) :
    ((quest text).pathfinder = true ↔ pathfinderLit <:+: text) ∧
    (quest text).flavor_text
      = stripText (takeUntil receivedLit (replaceAll pathfinderLit text)) ∧
    (quest text).loot = earnedMatches text ∧
    ∀ li ∈ (quest text).loot,
      li.item ≠ [] ∧ li.count ≠ [] ∧ li.count.all Char.isDigit = true ∧
      (earnedLit ++ li.item ++ '(' :: (li.count ++ [')'])) <:+: text := by
  refine ⟨containsSub_iff _ _, rfl, rfl, ?_⟩
  intro li hli
  exact earnedLoop_sound _ _ _ hli

/-- Witness for C8: the `Wood(5)` loot line of the end-to-end quest
message is emitted and really occurs in the text. -/
theorem C8_quest_parse_witness :
    (⟨"Wood".toList, "5".toList⟩ : LootItem) ∈
      (quest "mystery meadow\nYou received:\nEarned: Wood(5)".toList).loot ∧
    ("Wood".toList ≠ ([] : Text) ∧ "5".toList ≠ ([] : Text) ∧
      ("5".toList).all Char.isDigit = true ∧
      (earnedLit ++ "Wood".toList ++ '(' :: ("5".toList ++ [')'])) <:+:
        "mystery meadow\nYou received:\nEarned: Wood(5)".toList) :=
  ⟨by decide,
    (C8_quest_parse "mystery meadow\nYou received:\nEarned: Wood(5)".toList).2.2.2
      ⟨"Wood".toList, "5".toList⟩ (by decide)⟩

/-- C2 is refuted by the code, which the claim correctly describes as
intended: line 162 tests membership of the text among the flavors of
`bot_data`, but flavor records are only ever written to the per-user
flavors of `user_data` (line 240), and no code path writes the flavors of
`bot_data` (see `botFlavors_constant`), so the membership test
never fires.  In this closed run a quest event is recognized and resolved
(recording its flavor text for the user), yet forwarding exactly that
flavor text afterwards falls through to the unknown acknowledgement
instead of triggering the location prompt. -/
theorem C2_flavor_membership_dead :
    (quest "mystery meadow".toList).flavor_text = "mystery meadow".toList ∧
    (forwarded sys0 "mystery meadow\nYou received:\nEarned: Wood(5)".toList 3 true).2
      = .promptLocation "mystery meadow".toList ∧
    (lookupKey (buttonPress
        (forwarded sys0 "mystery meadow\nYou received:\nEarned: Wood(5)".toList 3 true).1
        "mystery meadow\nYou received:\nEarned: Wood(5)".toList 3 ['🌲']).1.userFlavors
      "mystery meadow".toList).isSome = true ∧
    (forwarded (buttonPress
        (forwarded sys0 "mystery meadow\nYou received:\nEarned: Wood(5)".toList 3 true).1
        "mystery meadow\nYou received:\nEarned: Wood(5)".toList 3 ['🌲']).1
      "mystery meadow".toList 4 true).2 = .replyUnknown := by decide

end CWBot

-- Concrete end-to-end evaluations of the embedded matchers and the
-- time table, mirroring the observable message formats of the bot.
open CWBot in
example : identityMatch "🐺[AB3]Wolf says hi".toList =
    some ⟨'🐺', "AB3".toList, "Wolf".toList⟩ := by decide

open CWBot in
example : alliance ("You found hidden passage Old Mill\n" ++
    "То remember the route you associated it with simple combination: AB12").toList =
    some ⟨"Old Mill".toList, none, none, "AB12".toList⟩ := by decide

open CWBot in
example : alliance ("You found hidden passage Old Mill\n" ++
    "You noticed that objective is captured by alliance.\n" ++
    "You noticed a horde of defender near it.\n" ++
    "То remember the route you associated it with simple combination: AB12").toList =
    some ⟨"Old Mill".toList, some occupiedLit,
      some "You noticed a horde of defender near it.\n".toList, "AB12".toList⟩ := by decide

open CWBot in
example : quest "mystery meadow\nYou received:\nEarned: Wood(5)\nEarned: Stone(2)".toList =
    ⟨false, "mystery meadow".toList,
      [⟨"Wood".toList, "5".toList⟩, ⟨"Stone".toList, "2".toList⟩]⟩ := by decide

open CWBot in
example : game_time 0 = "morning" ∧ game_time 9 = "day" ∧ game_time 23 = "morning" := by decide
